import Mathlib

/- Verification of the RestaurantReviewsApp core (src/js/app.js).

   Shallow embedding conventions:
   - JS strings are modeled as `List Char` (the URL helpers) or `String`
     (restaurant fields, filter selections).
   - JS `null`/`undefined` are modeled with `Option`; a field that can hold
     `undefined` (such as `model.restaurants` after a failed refresh) has an
     `Option` type, with `none` standing for `undefined`.
   - A JS method that can throw returns a pair of the mutated state and an
     `Option String` carrying the thrown message (`none` when no exception),
     or an `Except` when it has a return value.
   - Coordinates are rationals: the numeric values that `parseFloat` yields
     on the stored `latlng` components.
   - JS numbers that hold integers (restaurant ids, ratings) are `Int`;
     `NaN` is represented by `Option.none` where it can occur. -/

namespace RestaurantApp

/-- A restaurant record (class `Restaurant`), one per fetched JSON entry.
`lat`/`lng` are the parsed components of `latlng`. -/
structure Restaurant where
  id : Int
  name : String
  cuisine_type : String
  neighborhood : String
  lat : ℚ
  lng : ℚ
  deriving DecidableEq

/-- Character of a decimal digit `d < 10`, code point `48 + d`. -/
def digitChar (d : Nat) : Char := Char.ofNat (48 + d)

/-- Decimal representation of a natural number as JS `String(n)` produces it:
the base-10 digits, most significant first, with `0` rendered as the single
character string of zero. -/
def natDigitsChars (n : Nat) : List Char :=
  if n = 0 then [digitChar 0] else ((Nat.digits 10 n).map digitChar).reverse

/-- JS number-to-string conversion for integer values, as used by the
template literal in the `url` getter. -/
def jsIntToString (i : Int) : List Char :=
  if i < 0 then '-' :: natDigitsChars i.natAbs else natDigitsChars i.toNat

/-- The `url` getter of `Restaurant`: the fragment string of the id. -/
def Restaurant.url (r : Restaurant) : List Char := '#' :: jsIntToString r.id

/-- Numeric value of a run of decimal digit characters, exactly the value
`parseInt` computes for an all-digit prefix: left fold multiplying the
accumulator by ten and adding the digit value of the next character. -/
def digitsVal (ds : List Char) : Nat :=
  ds.foldl (fun a c => 10 * a + (c.toNat - 48)) 0

/-- The digit-run part of JS `parseInt` in radix ten: take the longest
leading run of decimal digits; no leading digit means `NaN` (`none`). -/
def parseDigits (l : List Char) : Option Nat :=
  let ds := l.takeWhile Char.isDigit
  if ds.isEmpty then none else some (digitsVal ds)

/-- Hexadecimal digit test, for the hex branch of radix-undefined
`parseInt`. -/
def isHexDigitChar (c : Char) : Bool :=
  c.isDigit || ('a' ≤ c && c ≤ 'f') || ('A' ≤ c && c ≤ 'F')

/-- Numeric value of a hexadecimal digit character. -/
def hexDigitVal (c : Char) : Nat :=
  if c.isDigit then c.toNat - 48
  else if 'a' ≤ c && c ≤ 'f' then c.toNat - 87
  else c.toNat - 55

/-- Numeric value of a run of hexadecimal digit characters. -/
def hexDigitsVal (ds : List Char) : Nat :=
  ds.foldl (fun a c => 16 * a + hexDigitVal c) 0

/-- The hex-digit-run part of `parseInt` after a hex prefix: take the
longest leading run of hexadecimal digits; no leading hex digit means
`NaN` (`none`). -/
def parseHexDigits (l : List Char) : Option Nat :=
  let ds := l.takeWhile isHexDigitChar
  if ds.isEmpty then none else some (hexDigitsVal ds)

/-- The unsigned part of radix-undefined JS `parseInt`: when the string
starts with the hex prefix (a zero followed by the letter x in either
case) the prefix is stripped and the rest is parsed as hexadecimal;
otherwise the longest leading decimal digit run is parsed. -/
def parseUnsigned (l : List Char) : Option Nat :=
  match l with
  | c0 :: c1 :: rest =>
    if c0 = '0' ∧ (c1 = 'x' ∨ c1 = 'X') then parseHexDigits rest
    else parseDigits l
  | _ => parseDigits l

/-- JS `parseInt(s)` with the radix argument omitted, as the app calls it
on url fragments: an optional sign followed by the unsigned parse with
hex auto-detection; `none` models `NaN`. -/
def parseIntJs (l : List Char) : Option Int :=
  match l with
  | [] => none
  | c :: rest =>
    if c = '-' then (parseUnsigned rest).map (fun n => -(Int.ofNat n))
    else if c = '+' then (parseUnsigned rest).map (fun n => Int.ofNat n)
    else (parseUnsigned (c :: rest)).map (fun n => Int.ofNat n)

/-- The value stored in the `id` field of the result of `_getUrlDetails`:
JS `null` when the url has no id, `NaN` when `parseInt` failed, or the
parsed number. -/
inductive JsIdVal where
  | null : JsIdVal
  | nan : JsIdVal
  | num : Int → JsIdVal
  deriving DecidableEq

/-- Result record of `RestaurantsController._getUrlDetails`. -/
structure UrlDetails where
  hasHash : Bool
  hasId : Bool
  id : JsIdVal
  deriving DecidableEq

/-- The characters after the last occurrence of the hash sign, or `none`
when there is none.  This models the combination used by
`_getUrlDetails`: `indexOf = url.lastIndexOf("#")` together with
`url.slice(indexOf + 1)`; `indexOf > -1` corresponds to the result being
`some`, and `indexOf + 1 === url.length` corresponds to the suffix being
empty. -/
def lastHashSplit : List Char → Option (List Char)
  | [] => none
  | c :: rest =>
    match lastHashSplit rest with
    | some frag => some frag
    | none => if c = '#' then some rest else none

/-- `RestaurantsController._getUrlDetails(url)` (src/js/app.js:107-118):
`hasHash` iff a hash sign occurs, `hasId` iff the suffix after the last
hash sign is nonempty, and `id = hasId ? parseInt(suffix) : null`. -/
def getUrlDetails (url : List Char) : UrlDetails :=
  match lastHashSplit url with
  | none => ⟨false, false, JsIdVal.null⟩
  | some frag =>
    if frag.isEmpty then ⟨true, false, JsIdVal.null⟩
    else ⟨true, true,
      match parseIntJs frag with
      | none => JsIdVal.nan
      | some i => JsIdVal.num i⟩

/-- The mutable fields of `RestaurantsModel`.  `restaurants` is an `Option`
because the JS field can end up `undefined` (see `update`); `cuisines` and
`neighborhoods` are JS `Set`s, modeled as duplicate-free lists in insertion
order. -/
structure ModelState where
  restaurants : Option (List Restaurant)
  cuisines : List String
  neighborhoods : List String
  selectedCuisine : Option String
  selectedNeighborhood : Option String
  filteredRestaurants : List Restaurant
  selectedRestaurant : Option Restaurant
  deriving DecidableEq

/-- The state built by the `RestaurantsModel` constructor. -/
def initialModel : ModelState :=
  ⟨some [], [], [], none, none, [], none⟩

/-- JS falsiness of a string-or-null value: `null` and the empty string are
falsy.  This is the meaning of the negation in
`!this.selectedCuisine || ...` inside `filter`. -/
def isFalsyStr : Option String → Bool
  | none => true
  | some s => s == ""

/-- First filter predicate of `RestaurantsModel.filter`:
`!this.selectedCuisine || restaurant.cuisine_type === this.selectedCuisine`. -/
def cuisinePass (sel : Option String) (r : Restaurant) : Bool :=
  isFalsyStr sel || (sel == some r.cuisine_type)

/-- Second filter predicate of `RestaurantsModel.filter`:
`!this.selectedNeighborhood || restaurant.neighborhood === this.selectedNeighborhood`. -/
def neighborhoodPass (sel : Option String) (r : Restaurant) : Bool :=
  isFalsyStr sel || (sel == some r.neighborhood)

/-- Body of `RestaurantsModel.filter` (src/js/app.js:40-44): the restaurant
list filtered first by cuisine, then by neighborhood. -/
def filterLists (sc sn : Option String) (rs : List Restaurant) : List Restaurant :=
  (rs.filter (cuisinePass sc)).filter (neighborhoodPass sn)

/-- `RestaurantsModel._fetchRestaurants` (src/js/app.js:59-67), given the
outcome of the network fetch and JSON parse.  On success the returned
promise resolves to the restaurant list.  On failure the `catch` callback
runs: it assigns an empty array to `this.restaurants`, logs, and returns
nothing, so the promise resolves to `undefined` (`none`). -/
def fetchRestaurants (outcome : Except Unit (List Restaurant)) (s : ModelState) :
    ModelState × Option (List Restaurant) :=
  match outcome with
  | Except.ok rs => (s, some rs)
  | Except.error _ => ({ s with restaurants := some [] }, none)

/-- `RestaurantsModel.update` (src/js/app.js:33-38).  It assigns the
resolved value of `_fetchRestaurants` to `this.restaurants`; on a failed
fetch that value is `undefined`, so the subsequent
`this.restaurants.map(...)` throws a TypeError, which rejects the promise
returned by `update`.  On success it recomputes the cuisine and
neighborhood sets and, when `updateFiltered` is set, the filtered list. -/
def update (outcome : Except Unit (List Restaurant)) (s : ModelState)
    (updateFiltered : Bool := true) : ModelState × Option String :=
  match fetchRestaurants outcome s with
  | (s1, none) =>
    ({ s1 with restaurants := none }, some "TypeError: this.restaurants is undefined")
  | (s1, some rs) =>
    ({ s1 with
        restaurants := some rs,
        cuisines := (rs.map Restaurant.cuisine_type).eraseDups,
        neighborhoods := (rs.map Restaurant.neighborhood).eraseDups,
        filteredRestaurants :=
          if updateFiltered then filterLists s1.selectedCuisine s1.selectedNeighborhood rs
          else s1.filteredRestaurants },
      none)

/-- JS `Array.prototype.reduce` with no initial value, applied to addition:
fold the tail starting from the head.  On the empty list JS would throw;
every call site guards against that case first. -/
def reduceSum : List ℚ → ℚ
  | [] => 0
  | h :: t => t.foldl (· + ·) h

/-- The getter `RestaurantsModel.centerCoordinatesOfFiltered`
(src/js/app.js:46-57): the fixed fallback coordinate when the filtered
list is empty, otherwise the per-component average computed by map,
reduce, and division by the length. -/
def centerCoordinatesOfFiltered (s : ModelState) : ℚ × ℚ :=
  if s.filteredRestaurants.isEmpty then (40.722216, -73.987501)
  else
    (reduceSum (s.filteredRestaurants.map Restaurant.lat) / (s.filteredRestaurants.length : ℚ),
     reduceSum (s.filteredRestaurants.map Restaurant.lng) / (s.filteredRestaurants.length : ℚ))

/-- `RestaurantsController.applyFilter` (src/js/app.js:83-105), with the
current values of the two filter select elements passed in as the
`uiCuisine`/`uiNeighborhood` parameters (the method reads them from the
DOM).  The UI sentinel value for selecting all is translated to `null`,
the selections are written to the model, and `update` is awaited.  The
trailing render calls read but do not write the model. -/
def applyFilter (uiCuisine uiNeighborhood : String)
    (outcome : Except Unit (List Restaurant)) (s : ModelState) : ModelState × Option String :=
  let cuisine := if uiCuisine == "all" then none else some uiCuisine
  let neighborhood := if uiNeighborhood == "all" then none else some uiNeighborhood
  update outcome { s with selectedCuisine := cuisine, selectedNeighborhood := neighborhood }

/-- The JS strict equality `restaurant.id === urlDetails.id` used by the
hash-change handler: `null` and `NaN` compare unequal to every number
(`NaN` even to itself), so only a parsed number can match. -/
def idMatches (v : JsIdVal) (r : Restaurant) : Bool :=
  match v with
  | JsIdVal.num i => r.id == i
  | _ => false

/-- `RestaurantsController.handleUrlHashChange` (src/js/app.js:120-136).
When the url details report an id, the handler looks the id up among
`model.restaurants` (throwing a TypeError if that field is `undefined`,
since JS cannot call `find` on `undefined`), selects the restaurant when
found, and otherwise changes nothing (the scroll call touches no model
state).  Without an id it clears the selection and re-runs `applyFilter`. -/
def handleUrlHashChange (uiCuisine uiNeighborhood : String)
    (outcome : Except Unit (List Restaurant)) (url : List Char) (s : ModelState) :
    ModelState × Option String :=
  let d := getUrlDetails url
  if d.hasId then
    match s.restaurants with
    | none => (s, some "TypeError: this.restaurants is undefined")
    | some rs =>
      match rs.find? (idMatches d.id) with
      | some r => ({ s with selectedRestaurant := some r }, none)
      | none => (s, none)
  else
    applyFilter uiCuisine uiNeighborhood outcome { s with selectedRestaurant := none }

/-- What the restaurant list panel renders (src/js/app.js:217-239): the
details panel of the selected restaurant, or one card per filtered
restaurant in order, or the no-matches message. -/
inductive ListPanelRender where
  | details : Restaurant → ListPanelRender
  | list : List Restaurant → ListPanelRender
  | noMatches : ListPanelRender
  deriving DecidableEq

/-- Render decision of `RestaurantsListPanelView.render`, a pure function
of the model state read through the controller getters. -/
def renderListPanel (s : ModelState) : ListPanelRender :=
  match s.selectedRestaurant with
  | some r => ListPanelRender.details r
  | none =>
    if s.filteredRestaurants.isEmpty then ListPanelRender.noMatches
    else ListPanelRender.list s.filteredRestaurants

/-- The controller `selectedRestaurant` setter (src/js/app.js:158-163): it
writes the model field and then calls the render entry points of the
restaurant list view, the app view, and the map view.  The render calls
only read model state (through controller getters) and mutate DOM and map
objects, so the model effect is the single field write; the returned
`ListPanelRender` is the list-view output recomputed from the new state. -/
def selectedRestaurantSet (restaurant : Option Restaurant) (s : ModelState) :
    ModelState × ListPanelRender :=
  let s1 := { s with selectedRestaurant := restaurant }
  (s1, renderListPanel s1)

/-- `RestaurantsListPanelView.createListItemReviewRatingElement`
(src/js/app.js:1657-1682), abstracted to its validation and to the list of
star states it appends (`true` for a filled star).  The input is the
rating value: `none` models a non-numeric rating (`parseInt` yields `NaN`),
`some k` an integer rating, on which `parseInt` is the identity.  A
non-numeric or out-of-range rating throws; otherwise star `i` of the five
is filled exactly when `i` is at most the rating. -/
def createListItemReviewRatingElement (rating : Option Int) : Except String (List Bool) :=
  match rating with
  | none => Except.error "rating is not a number"
  | some parsedRating =>
    if parsedRating < 1 ∨ 5 < parsedRating then
      Except.error "rating must be in range 1-5"
    else
      Except.ok ((List.range' 1 5).map
        (fun (starIndex : Nat) => decide ((starIndex : Int) ≤ parsedRating)))

/-- Concrete restaurant used by the C2 counterexample. -/
def rPizza : Restaurant := ⟨1, "Pizza Place", "Pizza", "Downtown", 10, 10⟩

/-- Concrete restaurant used by the C2 witness. -/
def rTaco : Restaurant := ⟨2, "Taco Place", "Taco", "Uptown", 20, 20⟩

/-- Model state with a cuisine selected, used by the C2 witness. -/
def sPizzaSel : ModelState := { initialModel with selectedCuisine := some "Pizza" }

/-- Concrete restaurant used by the C3 scenario. -/
def rSel : Restaurant := ⟨7, "Seven Stars", "Thai", "Midtown", 5, 6⟩

/-- State in details mode (a restaurant is selected), used for C3. -/
def sSelState : ModelState :=
  { initialModel with restaurants := some [rSel], selectedRestaurant := some rSel }

/-- Restaurant list delivered by the earlier-triggered refresh in the C4
race scenario. -/
def rFirst : Restaurant := ⟨1, "First", "c1", "n1", 1, 1⟩

/-- Restaurant list delivered by the later-triggered refresh in the C4
race scenario. -/
def rSecond : Restaurant := ⟨2, "Second", "c2", "n2", 2, 2⟩

/-- State whose filtered list holds restaurants at coordinates ten-ten and
twenty-twenty, used by the C7 witness. -/
def centerWitnessState : ModelState :=
  { initialModel with
      filteredRestaurants := [⟨1, "A", "a", "x", 10, 10⟩, ⟨2, "B", "b", "y", 20, 20⟩] }

/-- Restaurant with id twelve, used by the C10 witness. -/
def rTwelve : Restaurant := ⟨12, "Twelve Tables", "Fusion", "Harbor", 3, 4⟩

/-- State whose catalog contains the restaurant with id twelve. -/
def sTwelve : ModelState := { initialModel with restaurants := some [rTwelve] }

/-- Restaurant with id zero, used by the C10 counterexample. -/
def rZero : Restaurant := ⟨0, "Zero Point", "c0", "n0", 7, 8⟩

/-- State whose catalog contains the restaurant with id zero. -/
def sZero : ModelState := { initialModel with restaurants := some [rZero] }

/-! Helper lemmas about digit strings and parsing. -/

theorem digitChar_isDigit {d : Nat} (h : d < 10) : (digitChar d).isDigit = true := by
  interval_cases d <;> decide

theorem digitChar_toNat {d : Nat} (h : d < 10) : (digitChar d).toNat = 48 + d := by
  interval_cases d <;> decide

theorem isDigit_ne_minus {c : Char} (h : c.isDigit = true) : c ≠ '-' := by
  intro he
  rw [he] at h
  exact absurd h (by decide)

theorem isDigit_ne_plus {c : Char} (h : c.isDigit = true) : c ≠ '+' := by
  intro he
  rw [he] at h
  exact absurd h (by decide)

theorem isDigit_ne_hash {c : Char} (h : c.isDigit = true) : c ≠ '#' := by
  intro he
  rw [he] at h
  exact absurd h (by decide)

theorem isDigit_ne_x {c : Char} (h : c.isDigit = true) : c ≠ 'x' := by
  intro he
  rw [he] at h
  exact absurd h (by decide)

theorem isDigit_ne_X {c : Char} (h : c.isDigit = true) : c ≠ 'X' := by
  intro he
  rw [he] at h
  exact absurd h (by decide)

theorem parseUnsigned_all_digits {l : List Char} (h : ∀ c ∈ l, c.isDigit = true) :
    parseUnsigned l = parseDigits l := by
  cases l with
  | nil => rfl
  | cons c0 t =>
    cases t with
    | nil => rfl
    | cons c1 rest =>
      have h1 : c1.isDigit = true := h c1 (by simp)
      have hcond : ¬(c0 = '0' ∧ (c1 = 'x' ∨ c1 = 'X')) := by
        rintro ⟨h0, hx | hX⟩
        · exact isDigit_ne_x h1 hx
        · exact isDigit_ne_X h1 hX
      simp only [parseUnsigned, if_neg hcond]

theorem natDigitsChars_ne_nil (n : Nat) : natDigitsChars n ≠ [] := by
  unfold natDigitsChars
  split
  · simp
  · rename_i hn
    have hd : Nat.digits 10 n ≠ [] := Nat.digits_ne_nil_iff_ne_zero.mpr hn
    simp [hd]

theorem mem_natDigitsChars_isDigit {n : Nat} {c : Char} (hc : c ∈ natDigitsChars n) :
    c.isDigit = true := by
  unfold natDigitsChars at hc
  split at hc
  · simp at hc
    subst hc
    decide
  · rw [List.mem_reverse, List.mem_map] at hc
    obtain ⟨d, hd, rfl⟩ := hc
    exact digitChar_isDigit (Nat.digits_lt_base (by norm_num) hd)

theorem foldr_digitChar_ofDigits (L : List Nat) (h : ∀ d ∈ L, d < 10) :
    List.foldr (fun c a => 10 * a + (Char.toNat c - 48)) 0 (L.map digitChar) =
      Nat.ofDigits 10 L := by
  induction L with
  | nil => simp [Nat.ofDigits]
  | cons d L ih =>
    have hd : d < 10 := h d (List.mem_cons_self d L)
    have hL : ∀ x ∈ L, x < 10 := fun x hx => h x (List.mem_cons_of_mem d hx)
    simp only [List.map_cons, List.foldr_cons, ih hL, digitChar_toNat hd, Nat.ofDigits_cons]
    omega

theorem digitsVal_natDigitsChars (n : Nat) : digitsVal (natDigitsChars n) = n := by
  unfold natDigitsChars
  split
  · rename_i hn
    subst hn
    decide
  · rw [digitsVal, List.foldl_reverse]
    have h := foldr_digitChar_ofDigits (Nat.digits 10 n)
      (fun d hd => Nat.digits_lt_base (by norm_num) hd)
    have hofd := Nat.ofDigits_digits 10 n
    calc List.foldr (fun x y => 10 * y + (x.toNat - 48)) 0 ((Nat.digits 10 n).map digitChar)
        = Nat.ofDigits 10 (Nat.digits 10 n) := h
      _ = n := by exact_mod_cast hofd

theorem takeWhile_all {p : Char → Bool} :
    ∀ {l : List Char}, (∀ c ∈ l, p c = true) → l.takeWhile p = l := by
  intro l
  induction l with
  | nil => intro _; rfl
  | cons a t ih =>
    intro h
    have ha : p a = true := h a (List.mem_cons_self a t)
    simp [List.takeWhile_cons, ha, ih (fun c hc => h c (List.mem_cons_of_mem a hc))]

theorem takeWhile_append_stop {p : Char → Bool} :
    ∀ (ds : List Char) (j : Char) (rest : List Char),
      (∀ c ∈ ds, p c = true) → p j = false → (ds ++ j :: rest).takeWhile p = ds := by
  intro ds
  induction ds with
  | nil =>
    intro j rest _ hj
    simp [List.takeWhile_cons, hj]
  | cons a t ih =>
    intro j rest h hj
    have ha : p a = true := h a (List.mem_cons_self a t)
    simp [List.takeWhile_cons, ha,
      ih j rest (fun c hc => h c (List.mem_cons_of_mem a hc)) hj]

theorem parseDigits_all_digits {l : List Char} (hne : l ≠ [])
    (h : ∀ c ∈ l, c.isDigit = true) : parseDigits l = some (digitsVal l) := by
  simp only [parseDigits, takeWhile_all h]
  rw [if_neg (by simpa [List.isEmpty_iff] using hne)]

theorem parseIntJs_jsIntToString (i : Int) : parseIntJs (jsIntToString i) = some i := by
  unfold jsIntToString
  split
  · rename_i hi
    show parseIntJs ('-' :: natDigitsChars i.natAbs) = some i
    have hall : ∀ c ∈ natDigitsChars i.natAbs, c.isDigit = true :=
      fun c hc => mem_natDigitsChars_isDigit hc
    have hcast : (Int.ofNat i.natAbs) = -i := by rw [Int.ofNat_eq_natCast]; omega
    simp [parseIntJs, parseUnsigned_all_digits hall,
      parseDigits_all_digits (natDigitsChars_ne_nil _) hall,
      digitsVal_natDigitsChars, hcast]
    rw [abs_of_neg hi, neg_neg]
  · rename_i hi
    obtain ⟨c, rest, hcr⟩ : ∃ c rest, natDigitsChars i.toNat = c :: rest := by
      cases h : natDigitsChars i.toNat with
      | nil => exact absurd h (natDigitsChars_ne_nil _)
      | cons c r => exact ⟨c, r, rfl⟩
    have hall : ∀ x ∈ natDigitsChars i.toNat, x.isDigit = true :=
      fun x hx => mem_natDigitsChars_isDigit hx
    have hc : c.isDigit = true := hall c (by rw [hcr]; exact List.mem_cons_self c rest)
    have hcast : (Int.ofNat i.toNat) = i := by rw [Int.ofNat_eq_natCast]; omega
    rw [hcr]
    simp only [parseIntJs, if_neg (isDigit_ne_minus hc), if_neg (isDigit_ne_plus hc)]
    rw [← hcr, parseUnsigned_all_digits hall,
      parseDigits_all_digits (natDigitsChars_ne_nil _) hall,
      digitsVal_natDigitsChars]
    simp [hcast]
    omega

theorem lastHashSplit_of_not_mem : ∀ {l : List Char}, '#' ∉ l → lastHashSplit l = none := by
  intro l
  induction l with
  | nil => intro _; rfl
  | cons a t ih =>
    intro h
    have ha : a ≠ '#' := fun he => h (he ▸ List.mem_cons_self a t)
    have ht : '#' ∉ t := fun hm => h (List.mem_cons_of_mem a hm)
    simp [lastHashSplit, ih ht, ha]

theorem lastHashSplit_hash_cons {l : List Char} (h : '#' ∉ l) :
    lastHashSplit ('#' :: l) = some l := by
  simp [lastHashSplit, lastHashSplit_of_not_mem h]

theorem hash_not_mem_jsIntToString (i : Int) : '#' ∉ jsIntToString i := by
  unfold jsIntToString
  split
  · intro hmem
    rcases List.mem_cons.mp hmem with h | h
    · exact absurd h (by decide)
    · exact absurd (mem_natDigitsChars_isDigit h) (by decide)
  · intro hmem
    exact absurd (mem_natDigitsChars_isDigit hmem) (by decide)

theorem jsIntToString_ne_nil (i : Int) : jsIntToString i ≠ [] := by
  unfold jsIntToString
  split
  · simp
  · exact natDigitsChars_ne_nil _

theorem foldl_add_eq_add_sum (t : List ℚ) : ∀ x : ℚ, t.foldl (· + ·) x = x + t.sum := by
  induction t with
  | nil => intro x; simp
  | cons h t ih =>
    intro x
    rw [List.foldl_cons, ih (x + h), List.sum_cons]
    ring

theorem reduceSum_eq_sum {l : List ℚ} (h : l ≠ []) : reduceSum l = l.sum := by
  cases l with
  | nil => exact absurd rfl h
  | cons a t =>
    rw [reduceSum, foldl_add_eq_add_sum, List.sum_cons]

theorem cuisinePass_iff (sel : Option String) (r : Restaurant) :
    cuisinePass sel r = true ↔
      (sel = none ∨ sel = some "" ∨ sel = some r.cuisine_type) := by
  cases sel with
  | none => simp [cuisinePass, isFalsyStr]
  | some v =>
    simp only [cuisinePass, isFalsyStr, Bool.or_eq_true, beq_iff_eq,
      Option.some.injEq, reduceCtorEq, false_or]

theorem neighborhoodPass_iff (sel : Option String) (r : Restaurant) :
    neighborhoodPass sel r = true ↔
      (sel = none ∨ sel = some "" ∨ sel = some r.neighborhood) := by
  cases sel with
  | none => simp [neighborhoodPass, isFalsyStr]
  | some v =>
    simp only [neighborhoodPass, isFalsyStr, Bool.or_eq_true, beq_iff_eq,
      Option.some.injEq, reduceCtorEq, false_or]

theorem mem_filterLists_iff {sc sn : Option String} {rs : List Restaurant}
    {r : Restaurant} (hr : r ∈ rs) :
    r ∈ filterLists sc sn rs ↔
      ((sc = none ∨ sc = some "" ∨ sc = some r.cuisine_type) ∧
       (sn = none ∨ sn = some "" ∨ sn = some r.neighborhood)) := by
  rw [← cuisinePass_iff sc r, ← neighborhoodPass_iff sn r]
  simp only [filterLists, List.mem_filter, hr, true_and, and_comm]

theorem filterLists_sublist (sc sn : Option String) (rs : List Restaurant) :
    (filterLists sc sn rs).Sublist rs :=
  (List.filter_sublist _).trans (List.filter_sublist _)

theorem update_ok_filtered (rs : List Restaurant) (s : ModelState) :
    (update (Except.ok rs) s).1.filteredRestaurants =
      filterLists s.selectedCuisine s.selectedNeighborhood rs := rfl

theorem getUrlDetails_nan {url frag : List Char} (hsplit : lastHashSplit url = some frag)
    (hne : frag ≠ []) (hparse : parseIntJs frag = none) :
    getUrlDetails url = ⟨true, true, JsIdVal.nan⟩ := by
  have hempty : frag.isEmpty = false := by simpa [List.isEmpty_iff] using hne
  unfold getUrlDetails
  rw [hsplit]
  simp [hempty, hparse]

/-! Claim theorems. -/

/-- C1: the claim states that after a refresh whose fetch errors the
restaurant collection is exactly empty and no error is thrown to the
caller.  The code disagrees with its own recovery intent: the catch
callback assigns the empty array but resolves to `undefined`, so `update`
overwrites `restaurants` with `undefined` and the following map call
throws a TypeError that rejects the promise returned by `update`.  This
theorem evaluates `update` at the failing input: for every prior state,
`restaurants` ends up `undefined` (in particular not the empty list) and
an error escapes to the caller. -/
theorem C1_fetch_failure_bug (s : ModelState) :
    (update (Except.error ()) s).1.restaurants = none ∧
    (update (Except.error ()) s).1.restaurants ≠ some [] ∧
    (update (Except.error ()) s).2 = some "TypeError: this.restaurants is undefined" :=
  ⟨rfl, by simp [update, fetchRestaurants], rfl⟩

/-- C2 counterexample: the claim as stated fails for the selected cuisine
value that is the empty string.  Applying the filter with an empty-string
cuisine selection (reachable from an empty-valued select option) stores
the empty string as the selection, yet a restaurant whose cuisine differs
from it still appears in the filtered list, because JS falsiness treats
the empty string like absence. -/
theorem C2_empty_string_counterexample :
    (applyFilter "" "all" (Except.ok [rPizza]) initialModel).1.selectedCuisine = some "" ∧
    rPizza ∈ (applyFilter "" "all" (Except.ok [rPizza]) initialModel).1.filteredRestaurants ∧
    ¬((applyFilter "" "all" (Except.ok [rPizza]) initialModel).1.selectedCuisine = none ∨
      (applyFilter "" "all" (Except.ok [rPizza]) initialModel).1.selectedCuisine =
        some rPizza.cuisine_type) := by
  decide

/-- C2 (amended): after a refresh recomputes the filtered list, a
restaurant of the catalog appears in `filteredRestaurants` iff the
selected cuisine is absent, the empty string, or equal to its cuisine,
and likewise for the selected neighborhood; moreover the filtered list is
a sublist of the catalog, in the same relative order. -/
theorem C2_filter_correct (rs : List Restaurant) (s : ModelState) :
    ((update (Except.ok rs) s).1.filteredRestaurants).Sublist rs ∧
    ∀ r ∈ rs,
      (r ∈ (update (Except.ok rs) s).1.filteredRestaurants ↔
        ((s.selectedCuisine = none ∨ s.selectedCuisine = some "" ∨
            s.selectedCuisine = some r.cuisine_type) ∧
         (s.selectedNeighborhood = none ∨ s.selectedNeighborhood = some "" ∨
            s.selectedNeighborhood = some r.neighborhood))) := by
  constructor
  · rw [update_ok_filtered]
    exact filterLists_sublist _ _ _
  · intro r hr
    rw [update_ok_filtered]
    exact mem_filterLists_iff hr

/-- C2 witness: the filter-correctness theorem applied to a concrete
two-restaurant catalog with a cuisine selected. -/
theorem C2_filter_correct_witness :
    rPizza ∈ [rPizza, rTaco] ∧
    (rPizza ∈ (update (Except.ok [rPizza, rTaco]) sPizzaSel).1.filteredRestaurants ↔
      ((sPizzaSel.selectedCuisine = none ∨ sPizzaSel.selectedCuisine = some "" ∨
          sPizzaSel.selectedCuisine = some rPizza.cuisine_type) ∧
       (sPizzaSel.selectedNeighborhood = none ∨ sPizzaSel.selectedNeighborhood = some "" ∨
          sPizzaSel.selectedNeighborhood = some rPizza.neighborhood))) :=
  ⟨by decide, (C2_filter_correct [rPizza, rTaco] sPizzaSel).2 rPizza (by decide)⟩

/-- C3 counterexample: with a restaurant currently selected, handling a
url whose fragment does not parse as an integer leaves the selection in
place instead of resolving to Overview mode: `hasId` is still true (the
id is `NaN`), the lookup finds nothing, and the handler returns with the
state unchanged. -/
theorem C3_overview_counterexample :
    handleUrlHashChange "all" "all" (Except.ok []) ("https://x/#abc".toList) sSelState =
      (sSelState, none) ∧
    sSelState.selectedRestaurant ≠ none := by
  decide

/-- C3 (amended): for every url whose fragment is non-empty and does not
parse as an integer, handling the url-change event never throws and never
selects a restaurant, but it does not resolve to Overview mode either:
the whole model state, the prior selection included, is left unchanged. -/
theorem C3_garbage_fragment_no_throw (uiC uiN : String)
    (outcome : Except Unit (List Restaurant)) (url frag : List Char) (s : ModelState)
    (rs : List Restaurant) (hrs : s.restaurants = some rs)
    (hsplit : lastHashSplit url = some frag) (hne : frag ≠ [])
    (hparse : parseIntJs frag = none) :
    handleUrlHashChange uiC uiN outcome url s = (s, none) := by
  have hd := getUrlDetails_nan hsplit hne hparse
  have hfind : rs.find? (idMatches JsIdVal.nan) = none := by
    rw [List.find?_eq_none]
    intro x hx
    simp [idMatches]
  simp [handleUrlHashChange, hd, hrs, hfind]

/-- C3 witness: the amended garbage-fragment theorem applied to a
concrete url and a concrete state in details mode. -/
theorem C3_garbage_fragment_witness :
    (sSelState.restaurants = some [rSel] ∧
     lastHashSplit ("https://x/#abc".toList) = some ("abc".toList) ∧
     "abc".toList ≠ [] ∧ parseIntJs ("abc".toList) = none) ∧
    handleUrlHashChange "all" "all" (Except.ok []) ("https://x/#abc".toList) sSelState =
      (sSelState, none) :=
  ⟨⟨by decide, by decide, by decide, by decide⟩,
   C3_garbage_fragment_no_throw "all" "all" (Except.ok []) ("https://x/#abc".toList)
     ("abc".toList) sSelState [rSel] (by decide) (by decide) (by decide) (by decide)⟩

/-- C4 counterexample: two overlapping refreshes.  `update` runs no code
before awaiting the fetch, so in the single-threaded event model the two
calls reduce to applying the post-await continuation in resolution order.
Refresh one is triggered first and resolves second with `[rFirst]`;
refresh two is triggered second and resolves first with `[rSecond]`.  The
final catalog is refresh one's `[rFirst]`: the later-triggered refresh's
result does not survive, contrary to the claim. -/
theorem C4_stale_refresh_counterexample :
    ((update (Except.ok [rFirst])
        ((update (Except.ok [rSecond]) initialModel).1)).1).restaurants = some [rFirst] ∧
    ([rFirst] : List Restaurant) ≠ [rSecond] := by
  decide

/-- C4 (amended): with overlapping refreshes the final restaurant
collection reflects whichever refresh's fetch resolves last, whatever the
trigger order; the model has no serialization or staleness token, so an
earlier-triggered slow fetch that resolves after a later fast one
overwrites the fresher data. -/
theorem C4_last_resolution_wins (a b : List Restaurant) (s : ModelState) :
    ((update (Except.ok a) ((update (Except.ok b) s).1)).1).restaurants = some a := rfl

/-- C5: navigation round-trip.  Decoding the url produced by the `url`
accessor of any restaurant yields the details read: a hash, an id, and
the id value equal to the restaurant id. -/
theorem C5_nav_roundtrip (r : Restaurant) :
    getUrlDetails r.url = ⟨true, true, JsIdVal.num r.id⟩ := by
  have hmem := hash_not_mem_jsIntToString r.id
  have hne : (jsIntToString r.id).isEmpty = false := by
    simpa [List.isEmpty_iff] using jsIntToString_ne_nil r.id
  unfold Restaurant.url getUrlDetails
  rw [lastHashSplit_hash_cons hmem]
  simp [hne, parseIntJs_jsIntToString]

/-- C6: when the filtered list is empty the center getter returns exactly
the fixed fallback coordinate. -/
theorem C6_center_fallback (s : ModelState) (h : s.filteredRestaurants = []) :
    centerCoordinatesOfFiltered s = (40.722216, -73.987501) := by
  simp [centerCoordinatesOfFiltered, h]

/-- C6 witness: the fallback theorem applied to the freshly constructed
model, whose filtered list is empty. -/
theorem C6_center_fallback_witness :
    initialModel.filteredRestaurants = [] ∧
    centerCoordinatesOfFiltered initialModel = (40.722216, -73.987501) :=
  ⟨rfl, C6_center_fallback initialModel rfl⟩

/-- C7: on a non-empty filtered list the center getter returns the
arithmetic mean of the latitudes and the arithmetic mean of the
longitudes. -/
theorem C7_center_mean (s : ModelState) (h : s.filteredRestaurants ≠ []) :
    centerCoordinatesOfFiltered s =
      ((s.filteredRestaurants.map Restaurant.lat).sum / (s.filteredRestaurants.length : ℚ),
       (s.filteredRestaurants.map Restaurant.lng).sum / (s.filteredRestaurants.length : ℚ)) := by
  have hempty : s.filteredRestaurants.isEmpty = false := by
    simpa [List.isEmpty_iff] using h
  have hlat : s.filteredRestaurants.map Restaurant.lat ≠ [] := by
    intro hm
    exact h (List.map_eq_nil_iff.mp hm)
  have hlng : s.filteredRestaurants.map Restaurant.lng ≠ [] := by
    intro hm
    exact h (List.map_eq_nil_iff.mp hm)
  rw [centerCoordinatesOfFiltered, if_neg (by simp [hempty])]
  rw [reduceSum_eq_sum hlat, reduceSum_eq_sum hlng]

/-- C7 witness: the mean theorem applied to filtered restaurants at
coordinates ten-ten and twenty-twenty gives fifteen-fifteen. -/
theorem C7_center_mean_witness :
    centerWitnessState.filteredRestaurants ≠ [] ∧
    centerCoordinatesOfFiltered centerWitnessState = (15, 15) := by
  have h := C7_center_mean centerWitnessState (by decide)
  refine ⟨by decide, ?_⟩
  rw [h]
  norm_num [centerWitnessState, initialModel]

/-- C8: the rating renderer rejects its input iff the rating is
non-numeric or outside one to five, and for an in-range integer rating it
succeeds with exactly that many filled stars out of five. -/
theorem C8_rating_validation (rating : Option Int) :
    ((∃ e, createListItemReviewRatingElement rating = Except.error e) ↔
      (rating = none ∨ ∃ k, rating = some k ∧ (k < 1 ∨ 5 < k))) ∧
    ∀ k, rating = some k → 1 ≤ k → k ≤ 5 →
      ∃ stars, createListItemReviewRatingElement rating = Except.ok stars ∧
        stars.length = 5 ∧ stars.count true = k.toNat := by
  constructor
  · cases rating with
    | none => simp [createListItemReviewRatingElement]
    | some k =>
      by_cases hk : k < 1 ∨ 5 < k
      · simp [createListItemReviewRatingElement, if_pos hk, hk]
      · simp [createListItemReviewRatingElement, if_neg hk, hk]
  · intro k hkr h1 h5
    subst hkr
    have hk : ¬(k < 1 ∨ 5 < k) := by omega
    refine ⟨(List.range' 1 5).map (fun (starIndex : Nat) => decide ((starIndex : Int) ≤ k)),
      by simp [createListItemReviewRatingElement, if_neg hk],
      by rw [List.length_map, List.length_range'], ?_⟩
    interval_cases k <;> decide

/-- C8 witness: the validation theorem applied to the rating three. -/
theorem C8_rating_validation_witness :
    ∃ stars, createListItemReviewRatingElement (some 3) = Except.ok stars ∧
      stars.length = 5 ∧ stars.count true = 3 := by
  have h := (C8_rating_validation (some 3)).2 3 rfl (by decide) (by decide)
  obtain ⟨stars, h1, h2, h3⟩ := h
  exact ⟨stars, h1, h2, by simpa using h3⟩

/-- C9: the controller setter for the selected restaurant changes only
that model field; the catalog, the derived sets, the filter selections
and the filtered list are untouched (the render calls it triggers only
read model state). -/
theorem C9_setter_frame (restaurant : Option Restaurant) (s : ModelState) :
    (selectedRestaurantSet restaurant s).1.selectedRestaurant = restaurant ∧
    (selectedRestaurantSet restaurant s).1.restaurants = s.restaurants ∧
    (selectedRestaurantSet restaurant s).1.cuisines = s.cuisines ∧
    (selectedRestaurantSet restaurant s).1.neighborhoods = s.neighborhoods ∧
    (selectedRestaurantSet restaurant s).1.selectedCuisine = s.selectedCuisine ∧
    (selectedRestaurantSet restaurant s).1.selectedNeighborhood = s.selectedNeighborhood ∧
    (selectedRestaurantSet restaurant s).1.filteredRestaurants = s.filteredRestaurants :=
  ⟨rfl, rfl, rfl, rfl, rfl, rfl, rfl⟩

/-- C10 counterexample: the claim as stated fails on hex-prefixed
fragments, because radix-undefined `parseInt` auto-detects a hex prefix.
The fragment after the hash in the first url is a zero followed by the
non-digit letter x, so the claim says the decoder reports id zero and the
handler can select the restaurant with id zero; instead `parseInt` treats
the fragment as an empty hex literal, the decoder reports `NaN`, and the
handler selects nothing even with restaurant zero in the catalog.  The
last conjunct shows the hex parse itself: the fragment of zero, x, one, A
decodes to twenty-six, not to the leading-digit value zero. -/
theorem C10_hex_counterexample :
    getUrlDetails ("https://x/#0x".toList) = ⟨true, true, JsIdVal.nan⟩ ∧
    JsIdVal.nan ≠ JsIdVal.num ((digitsVal ("0".toList) : Int)) ∧
    sZero.restaurants = some [rZero] ∧ rZero.id = ((digitsVal ("0".toList) : Int)) ∧
    handleUrlHashChange "all" "all" (Except.ok []) ("https://x/#0x".toList) sZero =
      (sZero, none) ∧
    sZero.selectedRestaurant = none ∧
    getUrlDetails ("https://x/#0x1A".toList) = ⟨true, true, JsIdVal.num 26⟩ := by
  decide

/-- C10 (amended): a fragment of one or more leading digits followed by a
non-digit is not malformed, except when the digit run and the following
character form the hex prefix (the run is exactly a zero and the next
character is the letter x in either case, which radix-undefined
`parseInt` parses as hexadecimal instead).  Outside that case the url
details report an id equal to the decimal value of the leading digit run,
and the hash-change handler selects the restaurant found under that
id. -/
theorem C10_leading_digits (url ds jrest : List Char) (jc : Char)
    (hsplit : lastHashSplit url = some (ds ++ jc :: jrest)) (hds : ds ≠ [])
    (hdig : ∀ c ∈ ds, c.isDigit = true) (hjc : jc.isDigit = false)
    (hhex : ¬(ds = ['0'] ∧ (jc = 'x' ∨ jc = 'X'))) :
    getUrlDetails url = ⟨true, true, JsIdVal.num ((digitsVal ds : Int))⟩ ∧
    ∀ (uiC uiN : String) (outcome : Except Unit (List Restaurant)) (s : ModelState)
      (rs : List Restaurant) (r : Restaurant),
      s.restaurants = some rs →
      rs.find? (idMatches (JsIdVal.num ((digitsVal ds : Int)))) = some r →
      handleUrlHashChange uiC uiN outcome url s =
        ({ s with selectedRestaurant := some r }, none) := by
  obtain ⟨d, ds', rfl⟩ : ∃ d ds', ds = d :: ds' := by
    cases ds with
    | nil => exact absurd rfl hds
    | cons d t => exact ⟨d, t, rfl⟩
  rw [List.cons_append] at hsplit
  have hd : d.isDigit = true := hdig d (List.mem_cons_self d ds')
  have htake : List.takeWhile Char.isDigit (d :: (ds' ++ jc :: jrest)) = d :: ds' := by
    rw [← List.cons_append]
    exact takeWhile_append_stop _ jc jrest hdig hjc
  have hpu : parseUnsigned (d :: (ds' ++ jc :: jrest)) =
      parseDigits (d :: (ds' ++ jc :: jrest)) := by
    cases ds' with
    | nil =>
      have hcond : ¬(d = '0' ∧ (jc = 'x' ∨ jc = 'X')) := by
        rintro ⟨h0, hx⟩
        exact hhex ⟨by rw [h0], hx⟩
      simp only [List.nil_append, parseUnsigned, if_neg hcond]
    | cons d2 t =>
      have h2 : d2.isDigit = true := hdig d2 (by simp)
      have hcond : ¬(d = '0' ∧ (d2 = 'x' ∨ d2 = 'X')) := by
        rintro ⟨h0, hx | hX⟩
        · exact isDigit_ne_x h2 hx
        · exact isDigit_ne_X h2 hX
      simp only [List.cons_append, parseUnsigned, if_neg hcond]
  have hpd : parseDigits (d :: (ds' ++ jc :: jrest)) = some (digitsVal (d :: ds')) := by
    simp only [parseDigits, htake]
    rfl
  have hparse : parseIntJs (d :: (ds' ++ jc :: jrest)) =
      some ((digitsVal (d :: ds') : Int)) := by
    simp only [parseIntJs, if_neg (isDigit_ne_minus hd), if_neg (isDigit_ne_plus hd), hpu,
      hpd, Int.ofNat_eq_natCast]
    rfl
  have hgud : getUrlDetails url =
      ⟨true, true, JsIdVal.num ((digitsVal (d :: ds') : Int))⟩ := by
    unfold getUrlDetails
    rw [hsplit]
    simp [hparse]
  refine ⟨hgud, ?_⟩
  intro uiC uiN outcome s rs r hrs hfind
  simp [handleUrlHashChange, hgud, hrs, hfind]

/-- C10 witness: the leading-digits theorem applied to a url with the
fragment of twelve followed by letters (not a hex prefix), against a
catalog containing the restaurant with id twelve. -/
theorem C10_leading_digits_witness :
    (lastHashSplit ("https://x/#12abc".toList) = some ("12".toList ++ 'a' :: "bc".toList) ∧
     "12".toList ≠ [] ∧ (∀ c ∈ "12".toList, c.isDigit = true) ∧ ('a').isDigit = false ∧
     ¬("12".toList = ['0'] ∧ ('a' = 'x' ∨ 'a' = 'X')) ∧
     sTwelve.restaurants = some [rTwelve]) ∧
    getUrlDetails ("https://x/#12abc".toList) = ⟨true, true, JsIdVal.num 12⟩ ∧
    handleUrlHashChange "all" "all" (Except.ok []) ("https://x/#12abc".toList) sTwelve =
      ({ sTwelve with selectedRestaurant := some rTwelve }, none) := by
  have h := C10_leading_digits ("https://x/#12abc".toList) ("12".toList) ("bc".toList) 'a'
    (by decide) (by decide) (by decide) (by decide) (by decide)
  refine ⟨⟨by decide, by decide, by decide, by decide, by decide, by decide⟩, ?_, ?_⟩
  · rw [h.1]
    decide
  · exact h.2 "all" "all" (Except.ok []) sTwelve [rTwelve] rTwelve (by decide) (by decide)

end RestaurantApp
